import Mathlib

/-!
Shallow embedding of the VikingMUD access daemon, `src/resources/access.c`.

The daemon stores one access tree per principal in the global mapping
`access_map`.  A tree is a nested DGD mapping whose values are integer access
levels (leaves), nested mappings (branches) or, at the root of a player tree,
a string array under the pseudo-key `"?"` (explicit group memberships).  In
DGD an absent mapping key reads as integer 0 and assigning 0 to a key deletes
it, so a stored value is never the integer 0; the model keeps that invariant
by making `mset` delete nil values.

Embedded here, with source line references:
  * `resolveParts`        — the segment-splitting core of `_resolve` (445-513)
                            for absolute paths (all claims use absolute paths;
                            the `~`/relative prefix handling and the caller
                            lookup are identity on them).
  * `eval_map`            — single-tree single-segment step (538-569).
  * `evalSeg`/`evalPath`  — the lazy multi-tree loop of `_get_access`
                            (705-710), `getAccessCore` its override epilogue
                            (723-732).  The character-file pre-check
                            (683-685) depends on runtime object identity
                            (`previous_object`) and is not exercised by any
                            claim, so it is not modelled.
  * `query_groups`        — group resolution with the self-healing prune
                            (349-406), parameterised by the external inputs
                            `D_ARCHGROUP->query_data` and
                            `lookup_chardata(user, "level")` and by the
                            numeric level constants from levels.h.
  * `get_access_maps`     — prioritised map-list construction (613-653).
  * `grant_access`        — authorisation check, removal branch with
                            compaction, and grant branch with splitting and
                            compaction (1026-1237), with the removal and
                            grant mutations as `grant_remove`/`grant_add`.
  * `grant_access_group`  — group membership mutation (787-856).

Side effects are made explicit: functions that may mutate `access_map` return
the new map, and `query_groups` additionally returns how many times it called
`save_db`.
-/

/-- Access level constants, as given in the source header comment (38-44) and
    used throughout: REVOKED -1, NO_ACCESS 0, READ 1, GRANT_READ 2, WRITE 3,
    GRANT_WRITE 4, GRANT_GRANT 5. -/
def REVOKED : Int := -1

/-- NO_ACCESS: never stored in a tree; evaluator sentinel and removal verb. -/
def NO_ACCESS : Int := 0

/-- READ access level. -/
def READ : Int := 1

/-- GRANT_READ access level. -/
def GRANT_READ : Int := 2

/-- WRITE access level. -/
def WRITE : Int := 3

/-- GRANT_WRITE access level. -/
def GRANT_WRITE : Int := 4

/-- GRANT_GRANT access level. -/
def GRANT_GRANT : Int := 5

/-- A DGD mapping value inside the access database: an integer access level
    (leaf), a nested mapping (branch), or a string array (only the `"?"`
    group-membership node at the root of a player tree). -/
inductive Val where
  | vint : Int → Val
  | vmap : List (String × Val) → Val
  | varr : List String → Val

/-- A DGD mapping, modelled as an association list of its stored entries.
    DGD keeps mapping indices sorted internally; entry order is observable in
    the source only through `map_indices(...)[0]` at line 1104, which no claim
    exercises, so insertion keeps the position of an updated key and appends
    new keys. -/
abbrev AMap := List (String × Val)

/-- Lookup of a mapping key; `none` models the absent key (which DGD reads as
    integer 0). -/
def mget : AMap → String → Option Val
  | [], _ => none
  | (k, v) :: rest, key => if k = key then some v else mget rest key

/-- A value that DGD treats as nil when stored: the integer 0 (assigning it to
    a mapping key deletes the key). -/
def isNil : Val → Bool
  | Val.vint n => n = 0
  | _ => false

/-- DGD truthiness of a lookup result: absent keys and integer 0 are false,
    everything else true. -/
def truthy (v : Option Val) : Bool :=
  match v with
  | none => false
  | some w => ¬ isNil w

/-- Delete every entry with the given key. -/
def mdel : AMap → String → AMap
  | [], _ => []
  | (k', v') :: rest, k => if k' = k then mdel rest k else (k', v') :: mdel rest k

/-- Store a non-nil value under a key, updating in place or appending. -/
def msetSome : AMap → String → Val → AMap
  | [], k, v => if isNil v then [] else [(k, v)]
  | (k', v') :: rest, k, v =>
    if k' = k then (if isNil v then rest else (k, v) :: rest)
    else (k', v') :: msetSome rest k v

/-- Store a value under a key; storing `none` (or a nil value) deletes the
    key, mirroring DGD assignment of 0. -/
def mset (m : AMap) (k : String) : Option Val → AMap
  | none => mdel m k
  | some v => msetSome m k v

/-- Store a (non-option) value under a key. -/
def msetV (m : AMap) (k : String) (v : Val) : AMap := msetSome m k v

/-- Integer read of a mapping slot: `map[k]` assigned into an int variable.
    Absent keys give 0; non-integer values never occur under the keys the
    source reads this way (`"*"`/`"."` always hold access levels, per the
    tree grammar in the source header). -/
def mgetI (m : AMap) (k : String) : Int :=
  match mget m k with
  | some (Val.vint n) => n
  | _ => 0

/-- The `mapp(...)` test of the source: the value is a mapping. -/
def isVmap (v : Option Val) : Bool :=
  match v with
  | some (Val.vmap _) => true
  | _ => false

/-- View a lookup result as a mapping if it is one (used where the source
    would fault at a later indexing step otherwise). -/
def asMapQ (v : Option Val) : Option AMap :=
  match v with
  | some (Val.vmap m) => some m
  | _ => none

/-- View a value as a mapping, with non-mappings read as empty (the
    `mapp(map) ? map : ([ ])` guard at line 627). -/
def valToMap (v : Val) : AMap :=
  match v with
  | Val.vmap m => m
  | _ => []

/-- The `typeof(v) == T_INT && v == n` test on a lookup result. -/
def isIntEq (v : Option Val) (n : Int) : Bool :=
  match v with
  | some (Val.vint m) => m = n
  | _ => false

/-- Descend a chain of named branches, failing when a step is absent or not a
    mapping (the `!mapp(map) || !mapp(v = map[parts[i]])` validation of the
    removal branch, lines 1072-1081). -/
def descendStrict : AMap → List String → Option AMap
  | m, [] => some m
  | m, s :: rest =>
    match mget m s with
    | some (Val.vmap v) => descendStrict v rest
    | _ => none

/-- Read the branch at a path that is known to exist (helper view). -/
def getAt (m : AMap) (p : List String) : AMap := (descendStrict m p).getD []

/-- Rewrite the branch at a path in place, leaving the map unchanged when the
    path does not consist of branches (unreachable under the source's own
    validation). -/
def updAt : AMap → List String → (AMap → AMap) → AMap
  | m, [], f => f m
  | m, s :: rest, f =>
    match mget m s with
    | some (Val.vmap v) => msetV m s (Val.vmap (updAt v rest f))
    | _ => m

/-- Sorted insertion for `sortKeys`. -/
def insSorted (x : String) : List String → List String
  | [] => [x]
  | y :: rest => if x ≤ y then x :: y :: rest else y :: insSorted x rest

/-- Insertion sort on strings. -/
def sortKeys : List String → List String
  | [] => []
  | x :: rest => insSorted x (sortKeys rest)

/-- The `map_indices` kfun: the keys of a mapping in DGD's internal sorted
    order, modelled lexicographically.  Only `map_indices(...)[0]` at line
    1104 observes this order, and no claim exercises it. -/
def mapIndices (m : AMap) : List String := sortKeys (m.map Prod.fst)

/-- The `subtract_map` helper (583-598) at its single evaluation call site,
    which excludes exactly one key (`"?"`, line 627). -/
def subtract_map (m : AMap) (ex : String) : AMap := m.filter (fun kv => kv.1 ≠ ex)

/-- Sequence a prioritized map list: the source populates `dfls[i] =
    maps[i][1]["*"]` (line 695), which faults at the first entry whose map
    slot is not a mapping (a stale group name leaves a 0 there). -/
def seqPairs : List (String × Option AMap) → Option (List (String × AMap))
  | [] => some []
  | (n, some m) :: rest => (seqPairs rest).map (fun r => (n, m) :: r)
  | (_, none) :: _ => none

/-- Split a path on `/`, keeping boundary empties (DGD `explode` drops one
    boundary empty on each side, but the collapse pass below drops every
    empty segment, so the two agree after collapsing). -/
def explodeSlash : List Char → List Char → List String
  | [], acc => [String.mk acc.reverse]
  | c :: rest, acc =>
    if c = '/' then String.mk acc.reverse :: explodeSlash rest []
    else explodeSlash rest (c :: acc)

/-- The right-to-left segment collapse of `_resolve` (492-510), applied to the
    reversed segment list: empty segments are dropped, `".."` skips the next
    retained segment to its left, `"."` is dropped unless `flag` is set (in
    which case it participates like a normal segment). -/
def collapseRev (flag : Bool) : List String → Nat → List String
  | [], _ => []
  | p :: rest, skip =>
    if p = "" then collapseRev flag rest skip
    else if p = ".." then collapseRev flag rest (skip + 1)
    else if p = "." ∧ ¬ flag then collapseRev flag rest skip
    else if skip ≠ 0 then collapseRev flag rest (skip - 1)
    else collapseRev flag rest skip ++ [p]

/-- Segment resolution of `_resolve` (445-513) for absolute paths: the prefix
    handling at 460-485 is the identity on a path that starts with a single
    `/` (every path in the claims), after which the path is exploded on `/`
    and collapsed right to left. -/
def resolveParts (flag : Bool) (path : String) : List String :=
  collapseRev flag (explodeSlash path.toList []).reverse 0

/-- The `eval_map` step (538-569): evaluate one path segment against one
    tree's cursor, returning the access decision and the new cursor.  The
    `varr` child case would fault in the driver (`v["*"]` on an array) and is
    unreachable: the `"?"` node is stripped from the user map before
    evaluation (line 627). -/
def eval_map (part : String) (cursor : Option AMap) (dfl : Int) (fin : Bool) :
    Int × Option AMap :=
  match cursor with
  | none => (dfl, none)
  | some map =>
    match mget map part with
    | some (Val.vint v) => (v, none)
    | some (Val.vmap v) =>
      ((if dfl = 0 then mgetI v "*"
        else if fin ∧ mgetI v "." ≠ 0 then mgetI v "."
        else if (¬ fin) ∧ mgetI v "*" ≠ 0 then mgetI v "*"
        else dfl), some v)
    | some (Val.varr _) => (0, none)
    | none => ((if mgetI map "*" ≠ 0 then mgetI map "*" else dfl), none)

/-- The inner loop of `_get_access` (706-709) for one segment: try the per-map
    states in priority order; the first map whose `eval_map` decision is
    nonzero wins, is updated, and ends the loop.  Maps before the winner also
    had their cursor and default updated (to a zero decision); maps after it
    are untouched.  Returns the updated states and the winner's (index,
    decision), `none` when every map yielded 0. -/
def evalSeg (part : String) (fin : Bool) :
    List (Option AMap × Int) → List (Option AMap × Int) × Option (Nat × Int)
  | [] => ([], none)
  | st :: rest =>
    if (eval_map part st.1 st.2 fin).1 ≠ 0 then
      (((eval_map part st.1 st.2 fin).2, (eval_map part st.1 st.2 fin).1) :: rest,
       some (0, (eval_map part st.1 st.2 fin).1))
    else
      (((eval_map part st.1 st.2 fin).2, (eval_map part st.1 st.2 fin).1) :: (evalSeg part fin rest).1,
       (evalSeg part fin rest).2.map (fun q => (q.1 + 1, q.2)))

/-- The outer loop of `_get_access` (705-710): fold the segments over the
    per-map states; the returned index is the winner of the last segment, or
    the state-list length when the last segment had no winner (the source's
    `j` runs off the end there and the final `dfls[j]` read faults), or 0 for
    an empty segment list (`j` is initialised to 0). -/
def evalPath : List String → List (Option AMap × Int) → List (Option AMap × Int) × Nat
  | [], sts => (sts, 0)
  | p :: rest, sts =>
    match rest with
    | [] =>
      ((evalSeg p true sts).1,
       match (evalSeg p true sts).2 with
       | some q => q.1
       | none => sts.length)
    | _ :: _ => evalPath rest (evalSeg p false sts).1

/-- Initial per-map state: cursor at the root, default the root `"*"` level
    (694-697). -/
def initSts (maps : List (String × AMap)) : List (Option AMap × Int) :=
  maps.map (fun nm => ((some nm.2 : Option AMap), mgetI nm.2 "*"))

/-- Index of the map that decided the final segment. -/
def winnerIndex (parts : List String) (maps : List (String × AMap)) : Nat :=
  (evalPath parts (initSts maps)).2

/-- The generic result `({ dfls[j], maps[j][0] })` (line 732); `none` models
    the out-of-range fault when no map decided the final segment. -/
def genericResult (parts : List String) (maps : List (String × AMap)) :
    Option (Int × String) :=
  match (evalPath parts (initSts maps)).1.get? (winnerIndex parts maps),
        maps.get? (winnerIndex parts maps) with
  | some pr, some nm => some (pr.2, nm.1)
  | _, _ => none

/-- The evaluation core of `_get_access` on resolved segments and an explicit
    prioritized map list (the varargs form), lines 705-732: generic lazy
    evaluation followed by the two hard-coded overrides, which apply only when
    the path starts under `d`/`players` and the winner was not map 0 or the
    list holds a single map. -/
def getAccessCore (parts : List String) (user : String)
    (maps : List (String × AMap)) : Option (Int × String) :=
  if 2 ≤ parts.length ∧ (parts.get? 0 = some "d" ∨ parts.get? 0 = some "players") ∧
     (winnerIndex parts maps ≠ 0 ∨ maps.length = 1) then
    if parts.get? 1 = some user then some (GRANT_GRANT, "!")
    else if 3 ≤ parts.length ∧ parts.get? 2 = some "open" then some (READ, "!")
    else genericResult parts maps
  else genericResult parts maps

/-- The `lower_case` efun: lowercase the ASCII letters of a string.  A
    principal is a player exactly when its name equals its lowercased form. -/
def lower_case (s : String) : String :=
  String.mk (s.toList.map (fun c => if 'A' ≤ c ∧ c ≤ 'Z' then Char.ofNat (c.toNat + 32) else c))

/-- Hard-coded admin names (line 196). -/
def admins : List String := ["moreldir", "kralk", "cryzeck"]

/-- The "fake" users (line 199). -/
def fusers : List String := ["*", "backbone", "root"]

/-- The static groups (line 193). -/
def s_grps : List String :=
  ["Arch_full", "Arch_docs", "Arch_qc", "Arch_junior", "Arch_law", "Arch_web"]

/-- External inputs of `query_groups` for one principal: the raw arch-group
    affiliation array from `D_ARCHGROUP->query_data(user)` (`none` when the
    daemon returns a non-array), the principal's level from
    `lookup_chardata(user, "level")`, and the level constants from levels.h
    whose numeric values are outside this repository. -/
structure ExtData where
  archData : Option (List String)
  level : Int
  ARCHWIZARD : Int
  JUNIOR_ARCH : Int
  ELDER : Int

/-- The membership/prune loop of `query_groups` (386-395): walk the mapped
    arch groups; one not yet in the result list is appended when its tree
    exists and is otherwise removed (every occurrence) from the persisted
    list. -/
def qg_loop (amap : AMap) : List String → List String → List String →
    List String × List String
  | [], res, ua => (res, ua)
  | g :: rest, res, ua =>
    if g ∈ res then qg_loop amap rest res ua
    else if ¬ truthy (mget amap g) then qg_loop amap rest res (ua.filter (fun x => x ≠ g))
    else qg_loop amap rest (res ++ [g]) ua

/-- The mapped arch-group list (361-369): each raw affiliation `x` becomes
    `"Arch_" ++ x` when that tree exists as a mapping, and is dropped
    otherwise. -/
def archGroups (amap : AMap) (archData : Option (List String)) : List String :=
  match archData with
  | some gs =>
    gs.filterMap (fun g =>
      if isVmap (mget amap ("Arch_" ++ g)) then some ("Arch_" ++ g) else none)
  | none => []

/-- The persisted explicit membership list: the `"?"` array of the player's
    tree root when present (373-374). -/
def persistedGroups (amap : AMap) (user : String) : List String :=
  match mget amap user with
  | some (Val.vmap m) =>
    match mget m "?" with
    | some (Val.varr a) => a
    | _ => []
  | _ => []

/-- The automatic tier membership (379-384).  The level variable `l` is only
    assigned inside the `Arch_full` condition, so when the `Arch_full` tree
    does not exist the `Arch_junior` comparison reads the initial 0. -/
def tierGroups (ext : ExtData) (amap : AMap) (res0 : List String) : List String :=
  if isVmap (mget amap "Arch_full") ∧ ext.ARCHWIZARD ≤ ext.level then
    res0 ++ ["Arch_full"]
  else if isVmap (mget amap "Arch_junior") ∧
          ext.JUNIOR_ARCH ≤ (if isVmap (mget amap "Arch_full") then ext.level else 0) ∧
          (if isVmap (mget amap "Arch_full") then ext.level else 0) ≠ ext.ELDER then
    res0 ++ ["Arch_junior"]
  else res0

/-- `query_groups` (349-406): the ordered group list of a player, together
    with the possibly rewritten database and the number of `save_db` calls.
    Fake users and groups have no groups; the persisted list is written back
    (and the database saved once) exactly when the prune loop shrank it. -/
def query_groups (ext : ExtData) (amap : AMap) (user : String) :
    List String × AMap × Nat :=
  if user ∈ fusers then ([], amap, 0)
  else if user ≠ lower_case user then ([], amap, 0)
  else
    if (qg_loop amap (archGroups amap ext.archData)
          (tierGroups ext amap (persistedGroups amap user))
          (persistedGroups amap user)).2.length ≠ (persistedGroups amap user).length then
      ((qg_loop amap (archGroups amap ext.archData)
          (tierGroups ext amap (persistedGroups amap user))
          (persistedGroups amap user)).1,
       msetV amap user
         (Val.vmap (mset (valToMap ((mget amap user).getD (Val.vmap []))) "?"
           (if (qg_loop amap (archGroups amap ext.archData)
                 (tierGroups ext amap (persistedGroups amap user))
                 (persistedGroups amap user)).2.isEmpty then none
            else some (Val.varr (qg_loop amap (archGroups amap ext.archData)
                 (tierGroups ext amap (persistedGroups amap user))
                 (persistedGroups amap user)).2)))),
       1)
    else
      ((qg_loop amap (archGroups amap ext.archData)
          (tierGroups ext amap (persistedGroups amap user))
          (persistedGroups amap user)).1, amap, 0)

/-- `get_access_maps` (613-653): the prioritized list of (name, tree) pairs
    for a principal — own tree (with `"?"` stripped) first when present, then
    the group trees in membership order, then the `"*"` tree.  A group name
    whose database entry is not a mapping leaves a `none` slot, on which a
    later `_get_access` faults. -/
def get_access_maps (ext : ExtData) (amap : AMap) (user : String) :
    List (String × Option AMap) × AMap × Nat :=
  match mget (query_groups ext amap user).2.1 user with
  | some v =>
    if (query_groups ext amap user).1.isEmpty then
      ([(user, asMapQ (some v)),
        ("*", asMapQ (mget (query_groups ext amap user).2.1 "*"))],
       (query_groups ext amap user).2)
    else
      ((user, some (subtract_map (valToMap v) "?")) ::
        ((query_groups ext amap user).1.map
           (fun g => (g, asMapQ (mget (query_groups ext amap user).2.1 g))) ++
         [("*", asMapQ (mget (query_groups ext amap user).2.1 "*"))]),
       (query_groups ext amap user).2)
  | none =>
    if (query_groups ext amap user).1.isEmpty then
      ([("*", asMapQ (mget (query_groups ext amap user).2.1 "*"))],
       (query_groups ext amap user).2)
    else
      ((query_groups ext amap user).1.map
         (fun g => (g, asMapQ (mget (query_groups ext amap user).2.1 g))) ++
        [("*", asMapQ (mget (query_groups ext amap user).2.1 "*"))],
       (query_groups ext amap user).2)

/-- `_get_access` for a principal's own map list (675-733, without the
    explicit-maps varargs): resolve the path, build the map list, evaluate.
    The `maps -= ({ 0 })` at line 691 is a no-op here, `get_access_maps`
    producing only pair elements.  `none` models the driver faults (a stale
    group slot at line 695, or the final `dfls[j]` read with `j == mapc`). -/
def getAccessFull (ext : ExtData) (amap : AMap) (user path : String) :
    Option (Int × String) × AMap × Nat :=
  match seqPairs (get_access_maps ext amap user).1 with
  | none => (none, (get_access_maps ext amap user).2.1, (get_access_maps ext amap user).2.2)
  | some ms =>
    (getAccessCore (resolveParts false path) user ms,
     (get_access_maps ext amap user).2.1, (get_access_maps ext amap user).2.2)

/-- External data with no arch affiliations; the level constants are opaque
    values from levels.h, only compared when the corresponding tier tree
    exists. -/
def extNone : ExtData :=
  { archData := none, level := 0, ARCHWIZARD := 40, JUNIOR_ARCH := 35, ELDER := 38 }

/-- Constant external-data assignment for every principal. -/
def extsNone : String → ExtData := fun _ => extNone

/-- The required-access sets of the grant switch (1036-1058): the acting
    principal's effective access must be one of these levels.  `none` models
    the driver fault on an access type outside the switch (`reqtype` stays
    nil). -/
def reqtype (acctype : Int) : Option (List Int) :=
  if acctype = NO_ACCESS ∨ acctype = REVOKED ∨ acctype = READ then
    some [GRANT_READ, GRANT_WRITE, GRANT_GRANT]
  else if acctype = GRANT_READ ∨ acctype = WRITE then
    some [GRANT_WRITE, GRANT_GRANT]
  else if acctype = GRANT_WRITE ∨ acctype = GRANT_GRANT then
    some [GRANT_GRANT]
  else none

/-- The minimum grant tier of the claim's wording: GRANT_READ for
    NO_ACCESS/REVOKED/READ, GRANT_WRITE for GRANT_READ/WRITE, GRANT_GRANT for
    GRANT_WRITE/GRANT_GRANT. -/
def minTier (acctype : Int) : Int :=
  if acctype = NO_ACCESS ∨ acctype = REVOKED ∨ acctype = READ then GRANT_READ
  else if acctype = GRANT_READ ∨ acctype = WRITE then GRANT_WRITE
  else GRANT_GRANT

/-- A chain of fresh empty branches for the remaining segments, as created by
    `map = map[parts[i++]] = ([ ])` at 1171-1172. -/
def buildChain : List String → AMap
  | [] => []
  | s :: rest => [(s, Val.vmap (buildChain rest))]

/-- A split leaf (1169): the old scalar becomes the `"."`/`"*"` pair, and the
    remaining non-final segments hang off it as fresh empty branches. -/
def splitNode (n : Int) (rest : List String) : AMap :=
  match rest with
  | [] => [(".", Val.vint n), ("*", Val.vint n)]
  | t :: r => msetV [(".", Val.vint n), ("*", Val.vint n)] t (Val.vmap (buildChain r))

/-- The descend-and-split loop of the grant branch (1165-1178): walk the
    non-final segments, descending through branches; the first integer slot
    (a leaf, or an absent key read as 0) is split or replaced by fresh empty
    branches.  An array slot would fault in the driver on the next index
    (unreachable: `"?"` lives only at a player root and resolves paths never
    contain it in the claims). -/
def splitDescend : AMap → List String → Option AMap
  | m, [] => some m
  | m, s :: rest =>
    match mget m s with
    | some (Val.vmap v) => (splitDescend v rest).map (fun v' => msetV m s (Val.vmap v'))
    | some (Val.vint n) =>
      some (msetV m s (Val.vmap (if n = 0 then buildChain rest else splitNode n rest)))
    | none => some (msetV m s (Val.vmap (buildChain rest)))
    | some (Val.varr _) => none

/-- The obsolete-sibling cleanup of the `"*"` grant (1221-1224): delete every
    entry holding an integer equal to the new level. -/
def dropIntEq : AMap → Int → AMap
  | [], _ => []
  | (k, v) :: rest, X =>
    if isIntEq (some v) X then dropIntEq rest X else (k, v) :: dropIntEq rest X

/-- The `"*"`-grant mutation of the final branch (1206-1227): integer
    siblings equal to the new level are deleted as obsolete, then the new
    default is stored. -/
def starSet (m : AMap) (acctype : Int) : AMap :=
  msetV (dropIntEq m acctype) "*" (Val.vint acctype)

/-- The mutation core of the removal branch, acting on the target's own tree
    `root` with the final branch `b` already validated: the deletion
    (1087-1090), the fold compaction (1093-1108) — whose inner descend
    reassigns the working pointer to the parent branch, which the subsequent
    empty check then observes — and the empty-branch removal (1111-1115),
    whose descend runs to depth `sz - 2` and deletes `parts[sz-2]` there. -/
def grant_remove_core (root : AMap) (parts : List String) (b : AMap) : AMap :=
  let sz := parts.length - 1
  let P := parts.take sz
  let b0 := mdel b (parts.getD sz "")
  let m1 := updAt root P (fun _ => b0)
  let st :=
    if 2 ≤ sz ∧ (b0.length = 1 ∨ b0.length = 2) ∧
       (truthy (mget b0 "*") ∨ truthy (mget b0 ".")) then
      let b1 := mdel b0 "."
      let m2 := updAt m1 P (fun _ => b1)
      if b1.length = 1 then
        let k := if truthy (mget b1 "*") then "*"
                 else (mapIndices (getAt m2 (parts.take (sz - 1)))).getD 0 ""
        (updAt m2 (parts.take (sz - 1))
           (fun par => mset par (parts.getD (sz - 1) "") (mget b1 k)), true)
      else (m2, false)
    else (m1, false)
  let tgt := if st.2 then getAt st.1 (parts.take (sz - 1)) else getAt st.1 P
  if tgt.isEmpty then
    updAt st.1 (parts.take (sz - 2)) (fun nd => mdel nd (parts.getD (sz - 2) ""))
  else st.1

/-- The removal branch of `grant_access` (`acctype == NO_ACCESS`, 1069-1127):
    validate that the path exists in the target's own tree (absent database
    entry, a non-branch on the way, or a missing final entry are a no-op),
    run the mutation core, and drop the principal entirely when its tree came
    out empty.  Result codes: 0 not found, 1 removed, 2 principal removed. -/
def grant_remove_found (amap1 : AMap) (user : String) (parts : List String) :
    Int × AMap :=
  match mget amap1 user with
  | some (Val.vmap root) =>
    match descendStrict root (parts.take (parts.length - 1)) with
    | none => (0, amap1)
    | some b =>
      if ¬ truthy (mget b (parts.getD (parts.length - 1) "")) then (0, amap1)
      else
        if (grant_remove_core root parts b).isEmpty then (2, mdel amap1 user)
        else (1, msetV amap1 user (Val.vmap (grant_remove_core root parts b)))
  | _ => (0, amap1)

/-- The removal branch entry point: `none` models the driver fault on an
    empty segment list (line 1083 indexes `parts[0]`), the validated removal
    otherwise. -/
def grant_remove (amap1 : AMap) (user : String) (parts : List String) :
    Option (Int × AMap) :=
  match parts with
  | [] => none
  | _ :: _ => some (grant_remove_found amap1 user parts)

/-- The Group special case of the already-at-level check (1135-1151): the
    grant proceeds unless the Group's own tree holds a literal leaf with the
    requested level at the (flag-resolved) path. -/
def groupHasLeaf (amap2 : AMap) (user : String) (parts1 : List String)
    (acctype : Int) : Bool :=
  match parts1 with
  | [] => false
  | _ :: _ =>
    match mget amap2 user with
    | some (Val.vmap root) =>
      match descendStrict root (parts1.take (parts1.length - 1)) with
      | some bb => isIntEq (mget bb (parts1.getD (parts1.length - 1) "")) acctype
      | none => false
    | _ => false

/-- The tree mutation of the grant branch (1165-1230): descend the non-final
    segments with splitting, then apply one of the three final mutations —
    redundant-node deletion under an equal `"*"` with the fold back to a
    scalar at the parent (1185-1204), the `"*"`-grant with obsolete-sibling
    cleanup (1206-1227), or the plain store (1229-1230). -/
def grant_add_tree (root : AMap) (parts : List String) (acctype : Int) :
    Option AMap :=
  let sz := parts.length - 1
  let P := parts.take sz
  let fseg := parts.getD sz ""
  match splitDescend root P with
  | none => none
  | some root1 =>
    let b := getAt root1 P
    if isIntEq (mget b "*") acctype then
      let b1 := mdel b fseg
      let b2 := if b1.length = 2 ∧ truthy (mget b1 "*") ∧
                   mgetI b1 "*" = mgetI b1 "." then mdel b1 "." else b1
      let r2 := updAt root1 P (fun _ => b2)
      if 0 < sz ∧ b2.length = 1 then
        some (updAt r2 (parts.take (sz - 1))
          (fun par => msetV par (parts.getD (sz - 1) "") (Val.vint acctype)))
      else some r2
    else if fseg = "*" then some (updAt root1 P (fun _ => starSet b acctype))
    else some (updAt root1 P (fun _ => msetV b fseg (Val.vint acctype)))

/-- The tree-mutation entry point of the grant branch: fault on an empty
    segment list (line 1185 would index `parts[0]`); otherwise ensure the
    target owns a tree (`access_map[user] = ([ ])` at 1162-1163, absent
    entries read as empty), mutate it, and store it back with result
    code 1. -/
def grant_add_mut (amap2 : AMap) (user : String) (parts : List String)
    (acctype : Int) : Option (Int × AMap) :=
  match parts with
  | [] => none
  | _ :: _ =>
    (grant_add_tree
      (match mget amap2 user with | some (Val.vmap m) => m | _ => [])
      parts acctype).map
      (fun root2 => (1, msetV amap2 user (Val.vmap root2)))

/-- The grant branch of `grant_access` for a nonzero access type (1129-1236):
    the already-at-level check against the target's effective access (with
    the Group special case), then the tree mutation. -/
def grant_add (exts : String → ExtData) (amap1 : AMap) (user path : String)
    (acctype : Int) : Option (Int × AMap) :=
  match (getAccessFull (exts user) amap1 user path).1 with
  | none => none
  | some pr =>
    if pr.1 = acctype ∧ user = lower_case user then
      some (0, (getAccessFull (exts user) amap1 user path).2.1)
    else if pr.1 = acctype ∧
            groupHasLeaf ((getAccessFull (exts user) amap1 user path).2.1) user
              (resolveParts true path) acctype then
      some (0, (getAccessFull (exts user) amap1 user path).2.1)
    else
      grant_add_mut ((getAccessFull (exts user) amap1 user path).2.1) user
        (resolveParts false path) acctype

/-- `grant_access` (1026-1237): the authorisation check — the acting
    principal's effective access at the path must be in the required set for
    the access type, with the hard-coded admins exempt (1060-1066) — then the
    removal branch for NO_ACCESS or the grant branch otherwise.  The acting
    principal is identified by the effective uid of `this_player(1)`, assumed
    present.  `none` models driver faults (an access type outside the switch
    or an evaluation fault). -/
def grant_access (exts : String → ExtData) (euid : String) (amap : AMap)
    (path user : String) (acctype : Int) : Option (Int × AMap) :=
  match reqtype acctype with
  | none => none
  | some req =>
    match (getAccessFull (exts euid) amap euid path).1 with
    | none => none
    | some pr =>
      if pr.1 ∈ req ∨ euid ∈ admins then
        if acctype = 0 then
          grant_remove ((getAccessFull (exts euid) amap euid path).2.1) user
            (resolveParts true path)
        else
          grant_add exts ((getAccessFull (exts euid) amap euid path).2.1) user
            path acctype
      else some (-1, (getAccessFull (exts euid) amap euid path).2.1)

/-- `grant_access_group` (787-856): add or remove a player's membership of an
    access group, acting on the persisted `"?"` list.  `ext` carries the
    target player's external data (its `level` is `lookup_chardata(user,
    "level")`); `plyLevel` is the acting player's `query_level()`.  Result
    codes as in the source: 1 removed, 2 added, negative for the error
    cases.  The acting player object of `this_player(1)` is assumed present
    (its absence returns -1 at line 793 before anything happens). -/
def grant_access_group (ext : ExtData) (plyLevel : Int) (amap : AMap)
    (user group : String) (add : Bool) : Int × AMap :=
  if user ∈ fusers then (-6, amap)
  else if user ≠ lower_case user then (-5, amap)
  else
    let g := (query_groups ext amap user).1
    let amap1 := (query_groups ext amap user).2.1
    if group ∈ g then
      if add then (-3, amap1)
      else if group ∈ s_grps ∧ ext.JUNIOR_ARCH ≤ ext.level then (-7, amap1)
      else
        let g' := g.filter (fun x => x ≠ group)
        let root := match mget amap1 user with | some (Val.vmap m) => m | _ => []
        let root1 := mset root "?" (if g'.isEmpty then none else some (Val.varr g'))
        if g'.isEmpty ∧ root1.isEmpty then (1, mdel amap1 user)
        else (1, msetV amap1 user (Val.vmap root1))
    else if ¬ add then (-4, amap1)
    else if ¬ isVmap (mget amap1 group) then (-2, amap1)
    else if group ∈ s_grps ∧ plyLevel < ext.ARCHWIZARD then (-8, amap1)
    else
      let root := match mget amap1 user with | some (Val.vmap m) => m | _ => []
      (2, msetV amap1 user (Val.vmap (msetV root "?" (Val.varr (g ++ [group])))))

/-- The example tree of the source header (57-71) and the spec's domain-model
    example. -/
def exTree : AMap :=
  [(".", Val.vint READ), ("*", Val.vint READ), ("data", Val.vint REVOKED),
   ("log", Val.vint WRITE),
   ("players", Val.vmap
     [(".", Val.vint READ), ("*", Val.vint REVOKED), ("aedil", Val.vint GRANT_GRANT),
      ("frogo", Val.vmap [(".", Val.vint READ), ("*", Val.vint REVOKED)])])]

/-- The example tree as the only entry of a prioritized map list. -/
def exMaps : List (String × AMap) := [("owner", exTree)]

/-- Every segment occurring in the example paths of the domain model. -/
def exSegs : List String :=
  ["characters", "data", "notes", "log", "driver", "players", "aedil", "com",
   "access.c", "dios", "frogo", "workroom.c"]

/-- Database for the priority-ordering example: player `alice` revokes
    `/data` in her own tree and belongs to group `Grp`, whose tree grants
    WRITE on `/data`; the global tree defaults to READ. -/
def amapPrio : AMap :=
  [("*", Val.vmap [("*", Val.vint READ)]),
   ("Grp", Val.vmap [("data", Val.vint WRITE)]),
   ("alice", Val.vmap [("?", Val.varr ["Grp"]), ("data", Val.vint REVOKED)])]

/-- Database for the stale-membership example: player `alice` has the
    persisted membership `Gone`, whose tree no longer exists. -/
def amapStale : AMap :=
  [("*", Val.vmap [("*", Val.vint READ)]),
   ("alice", Val.vmap [("?", Val.varr ["Gone"])])]

/-- Database for the suppressed-override example: `frogo` has no tree of his
    own but one arch affiliation mapping to `Arch_x`, whose tree grants WRITE
    below `/players`. -/
def amapArch : AMap :=
  [("*", Val.vmap [("*", Val.vint READ)]),
   ("Arch_x", Val.vmap [("players", Val.vmap [("*", Val.vint WRITE)])])]

/-- External data carrying the raw arch affiliation `x`. -/
def extArch : ExtData :=
  { archData := some ["x"], level := 0, ARCHWIZARD := 40, JUNIOR_ARCH := 35, ELDER := 38 }

/-- The global default tree used in the mutation scenarios. -/
def gTree : AMap := [("*", Val.vint READ)]

/-- Database for the fold-compaction scenario: `bob`'s tree defaults the root
    to GRANT_READ and holds the branch `/a/b` with an unequal `"."`/`"*"`
    pair and the extra leaf `x`. -/
def amapFold : AMap :=
  [("*", Val.vmap gTree),
   ("bob", Val.vmap
     [("*", Val.vint GRANT_READ),
      ("a", Val.vmap
        [("b", Val.vmap
          [(".", Val.vint READ), ("*", Val.vint WRITE), ("x", Val.vint GRANT_GRANT)])])])]

/-- Database for the empty-branch-removal scenario: `bob` grants WRITE on
    `/a/b/c` and GRANT_GRANT on the sibling `/a/d`. -/
def amapSib : AMap :=
  [("*", Val.vmap gTree),
   ("bob", Val.vmap
     [("a", Val.vmap [("b", Val.vmap [("c", Val.vint WRITE)]), ("d", Val.vint GRANT_GRANT)])])]

/-- Database for the modifier-independence scenario: `bob`'s branch `/a`
    holds the self-level READ and the leaf `b`. -/
def amapDot : AMap :=
  [("*", Val.vmap [("*", Val.vint GRANT_READ)]),
   ("bob", Val.vmap
     [("*", Val.vint GRANT_READ),
      ("a", Val.vmap [(".", Val.vint READ), ("b", Val.vint GRANT_GRANT)])])]

/-- Database with only the global default tree. -/
def amapG : AMap := [("*", Val.vmap gTree)]

/-- Database for the static-group scenario: `bob`'s persisted membership is
    `Arch_docs`. -/
def amapGrp : AMap :=
  [("*", Val.vmap gTree), ("bob", Val.vmap [("?", Val.varr ["Arch_docs"])])]

/-- External data for a target player at exactly JUNIOR_ARCH level. -/
def extJr : ExtData :=
  { archData := none, level := 35, ARCHWIZARD := 40, JUNIOR_ARCH := 35, ELDER := 38 }


/-! Helper lemmas. -/

/-- When neither override pattern matches the path, `getAccessCore` is the
    generic evaluation result. -/
theorem no_override (parts : List String) (user : String)
    (maps : List (String × AMap))
    (h1 : parts.get? 1 ≠ some user)
    (h2 : ¬ (3 ≤ parts.length ∧ parts.get? 2 = some "open")) :
    getAccessCore parts user maps = genericResult parts maps := by
  unfold getAccessCore
  by_cases c1 : 2 ≤ parts.length ∧
      (parts.get? 0 = some "d" ∨ parts.get? 0 = some "players") ∧
      (winnerIndex parts maps ≠ 0 ∨ maps.length = 1)
  · rw [if_pos c1, if_neg h1, if_neg h2]
  · rw [if_neg c1]

/-- `mget` after a store under a different key. -/
theorem mget_msetSome_ne (m : AMap) (k k' : String) (v : Val) (h : k ≠ k') :
    mget (msetSome m k' v) k = mget m k := by
  induction m with
  | nil =>
    unfold msetSome
    by_cases hn : isNil v
    · rw [if_pos hn]
    · rw [if_neg hn]
      simp [mget, Ne.symm h]
  | cons kv rest ih =>
    obtain ⟨k0, v0⟩ := kv
    have hk' : k' ≠ k := fun e => h e.symm
    unfold msetSome
    by_cases hk : k0 = k'
    · subst hk
      by_cases hn : isNil v
      · rw [if_pos rfl, if_pos hn, mget, if_neg hk']
      · rw [if_pos rfl, if_neg hn, mget, if_neg hk', mget, if_neg hk']
    · rw [if_neg hk]
      by_cases he : k0 = k
      · subst he
        rw [mget, if_pos rfl, mget, if_pos rfl]
      · rw [mget, if_neg he, mget, if_neg he]
        exact ih

/-- `mget` after a store under the same key of a non-nil value. -/
theorem mget_msetSome_self (m : AMap) (k : String) (v : Val)
    (h : isNil v = false) :
    mget (msetSome m k v) k = some v := by
  induction m with
  | nil =>
    unfold msetSome
    rw [if_neg (by simp [h]), mget, if_pos rfl]
  | cons kv rest ih =>
    obtain ⟨k0, v0⟩ := kv
    unfold msetSome
    by_cases hk : k0 = k
    · rw [if_pos hk, if_neg (by simp [h]), mget, if_pos rfl]
    · rw [if_neg hk, mget, if_neg hk]
      exact ih

/-- The obsolete-sibling cleanup keeps an integer entry whose value differs
    from the granted level. -/
theorem mget_dropIntEq (m : AMap) (k : String) (d X : Int)
    (h : mget m k = some (Val.vint d)) (hne : d ≠ X) :
    mget (dropIntEq m X) k = some (Val.vint d) := by
  induction m with
  | nil => simp [mget] at h
  | cons kv rest ih =>
    obtain ⟨k0, v0⟩ := kv
    by_cases hk : k0 = k
    · subst hk
      rw [mget, if_pos rfl] at h
      obtain rfl : v0 = Val.vint d := Option.some.inj h
      rw [dropIntEq, if_neg (by simp [isIntEq, hne])]
      rw [mget, if_pos rfl]
    · rw [mget, if_neg hk] at h
      rw [dropIntEq]
      by_cases hv : isIntEq (some v0) X
      · rw [if_pos hv]
        exact ih h
      · rw [if_neg hv, mget, if_neg hk]
        exact ih h

/-- The prune loop never shrinks the persisted list when every walked group
    exists (as it always does, the walked list being pre-filtered). -/
theorem qg_loop_snd (amap : AMap) (gs : List String)
    (h : ∀ g ∈ gs, truthy (mget amap g)) :
    ∀ res ua, (qg_loop amap gs res ua).2 = ua := by
  induction gs with
  | nil => intro res ua; rfl
  | cons g rest ih =>
    intro res ua
    have hg := h g (by simp)
    have hrest : ∀ g' ∈ rest, truthy (mget amap g') :=
      fun g' hm => h g' (by simp [hm])
    unfold qg_loop
    by_cases hmem : g ∈ res
    · rw [if_pos hmem]
      exact ih hrest res ua
    · rw [if_neg hmem, if_neg (by simp [hg])]
      exact ih hrest (res ++ [g]) ua

/-- Every mapped arch group exists in the database as a mapping. -/
theorem archGroups_truthy (amap : AMap) (ad : Option (List String)) :
    ∀ g ∈ archGroups amap ad, truthy (mget amap g) := by
  intro g hg
  unfold archGroups at hg
  cases ad with
  | none => simp at hg
  | some gs =>
    simp only [List.mem_filterMap] at hg
    obtain ⟨x, _, hx⟩ := hg
    by_cases hv : isVmap (mget amap ("Arch_" ++ x))
    · rw [if_pos hv] at hx
      obtain rfl : "Arch_" ++ x = g := Option.some.inj hx
      revert hv
      unfold isVmap truthy isNil
      cases mget amap ("Arch_" ++ x) with
      | none => simp
      | some w => cases w <;> simp
    · rw [if_neg hv] at hx
      cases hx

/-- The self-healing prune of `query_groups` is unreachable: the database and
    the save counter are always returned unchanged. -/
theorem query_groups_state (ext : ExtData) (amap : AMap) (user : String) :
    (query_groups ext amap user).2 = (amap, 0) := by
  unfold query_groups
  by_cases h1 : user ∈ fusers
  · rw [if_pos h1]
  · rw [if_neg h1]
    by_cases h2 : user ≠ lower_case user
    · rw [if_pos h2]
    · have hq := qg_loop_snd amap (archGroups amap ext.archData)
        (archGroups_truthy amap ext.archData)
        (tierGroups ext amap (persistedGroups amap user)) (persistedGroups amap user)
      rw [if_neg h2, if_neg (not_not_intro (congrArg List.length hq))]

/-- An access level below the claim's minimum tier is outside the required
    set of the grant switch. -/
theorem not_mem_req_of_lt_minTier (t a : Int) (req : List Int)
    (hreq : reqtype t = some req) (hlt : a < minTier t) : a ∉ req := by
  unfold reqtype at hreq
  unfold minTier at hlt
  split_ifs at hreq with h1 h2 h3
  · obtain rfl := Option.some.inj hreq
    rw [if_pos h1] at hlt
    simp only [GRANT_READ] at hlt
    intro hm
    simp only [GRANT_READ, GRANT_WRITE, GRANT_GRANT, List.mem_cons,
      List.not_mem_nil, or_false] at hm
    rcases hm with rfl | rfl | rfl <;> omega
  · obtain rfl := Option.some.inj hreq
    rw [if_neg h1, if_pos h2] at hlt
    simp only [GRANT_WRITE] at hlt
    intro hm
    simp only [GRANT_WRITE, GRANT_GRANT, List.mem_cons,
      List.not_mem_nil, or_false] at hm
    rcases hm with rfl | rfl <;> omega
  · obtain rfl := Option.some.inj hreq
    rw [if_neg h1, if_neg h2] at hlt
    simp only [GRANT_GRANT] at hlt
    intro hm
    simp only [GRANT_GRANT, List.mem_cons, List.not_mem_nil, or_false] at hm
    rcases hm with rfl
    omega


/-- Every outcome of the validated removal carries result code 0, 1 or 2. -/
theorem grant_remove_found_code (amap1 : AMap) (user : String)
    (parts : List String) :
    (grant_remove_found amap1 user parts).1 = 0 ∨
    (grant_remove_found amap1 user parts).1 = 1 ∨
    (grant_remove_found amap1 user parts).1 = 2 := by
  unfold grant_remove_found
  repeat' split
  all_goals simp

/-- Every non-fault outcome of the removal branch carries code 0, 1 or 2. -/
theorem grant_remove_code (amap1 : AMap) (user : String) (parts : List String)
    (r : Int × AMap) (h : grant_remove amap1 user parts = some r) :
    r.1 = 0 ∨ r.1 = 1 ∨ r.1 = 2 := by
  unfold grant_remove at h
  cases parts with
  | nil => cases h
  | cons p ps =>
    obtain rfl := Option.some.inj h
    exact grant_remove_found_code amap1 user (p :: ps)

/-- Every non-fault outcome of the grant-branch mutation carries code 1. -/
theorem grant_add_mut_code (amap2 : AMap) (user : String) (parts : List String)
    (acctype : Int) (r : Int × AMap)
    (h : grant_add_mut amap2 user parts acctype = some r) : r.1 = 1 := by
  unfold grant_add_mut at h
  cases parts with
  | nil => cases h
  | cons p ps =>
    rw [Option.map_eq_some'] at h
    obtain ⟨root2, _, hr⟩ := h
    rw [← hr]

/-- Every non-fault outcome of the grant branch carries code 0 or 1. -/
theorem grant_add_code (exts : String → ExtData) (amap1 : AMap)
    (user path : String) (acctype : Int) (r : Int × AMap)
    (h : grant_add exts amap1 user path acctype = some r) :
    r.1 = 0 ∨ r.1 = 1 := by
  unfold grant_add at h
  split at h
  · cases h
  · split at h
    · obtain rfl := Option.some.inj h
      simp
    · split at h
      · obtain rfl := Option.some.inj h
        simp
      · exact Or.inr (grant_add_mut_code _ _ _ _ _ h)

/-! Claim theorems. -/

/-- C1: for the example access tree of the domain model, evaluated as the
    only tree in the prioritized list, any requesting principal whose name is
    not a segment of the example paths obtains Read for `/`, Read for
    `/characters`, Revoked for `/data/notes`, Write for `/log/driver`, Read
    for `/players`, GrantGrant for `/players/aedil/com/access.c`, Revoked for
    `/players/dios/workroom.c`, Read for `/players/frogo`, and Revoked for
    `/players/frogo/workroom.c`. -/
theorem access_c1_example_tree (u : String) (hu : u ∉ exSegs) :
    (getAccessCore (resolveParts false "/") u exMaps).map Prod.fst = some READ ∧
    (getAccessCore (resolveParts false "/characters") u exMaps).map Prod.fst = some READ ∧
    (getAccessCore (resolveParts false "/data/notes") u exMaps).map Prod.fst = some REVOKED ∧
    (getAccessCore (resolveParts false "/log/driver") u exMaps).map Prod.fst = some WRITE ∧
    (getAccessCore (resolveParts false "/players") u exMaps).map Prod.fst = some READ ∧
    (getAccessCore (resolveParts false "/players/aedil/com/access.c") u exMaps).map Prod.fst = some GRANT_GRANT ∧
    (getAccessCore (resolveParts false "/players/dios/workroom.c") u exMaps).map Prod.fst = some REVOKED ∧
    (getAccessCore (resolveParts false "/players/frogo") u exMaps).map Prod.fst = some READ ∧
    (getAccessCore (resolveParts false "/players/frogo/workroom.c") u exMaps).map Prod.fst = some REVOKED := by
  have ha : u ≠ "aedil" :=
    fun e => hu (e.symm ▸ (by decide : ("aedil" : String) ∈ exSegs))
  have hd : u ≠ "dios" :=
    fun e => hu (e.symm ▸ (by decide : ("dios" : String) ∈ exSegs))
  have hf : u ≠ "frogo" :=
    fun e => hu (e.symm ▸ (by decide : ("frogo" : String) ∈ exSegs))
  refine ⟨rfl, rfl, rfl, rfl, rfl, ?_, ?_, ?_, ?_⟩
  · rw [no_override (resolveParts false "/players/aedil/com/access.c") u exMaps
      (fun h => ha (Option.some.inj (show some "aedil" = some u from h)).symm)
      (by decide)]
    rfl
  · rw [no_override (resolveParts false "/players/dios/workroom.c") u exMaps
      (fun h => hd (Option.some.inj (show some "dios" = some u from h)).symm)
      (by decide)]
    rfl
  · rw [no_override (resolveParts false "/players/frogo") u exMaps
      (fun h => hf (Option.some.inj (show some "frogo" = some u from h)).symm)
      (by decide)]
    rfl
  · rw [no_override (resolveParts false "/players/frogo/workroom.c") u exMaps
      (fun h => hf (Option.some.inj (show some "frogo" = some u from h)).symm)
      (by decide)]
    rfl

/-- C1 witness: the instantiation at the concrete principal `visitor`. -/
theorem access_c1_example_tree_witness :
    "visitor" ∉ exSegs ∧
    ((getAccessCore (resolveParts false "/") "visitor" exMaps).map Prod.fst = some READ ∧
     (getAccessCore (resolveParts false "/characters") "visitor" exMaps).map Prod.fst = some READ ∧
     (getAccessCore (resolveParts false "/data/notes") "visitor" exMaps).map Prod.fst = some REVOKED ∧
     (getAccessCore (resolveParts false "/log/driver") "visitor" exMaps).map Prod.fst = some WRITE ∧
     (getAccessCore (resolveParts false "/players") "visitor" exMaps).map Prod.fst = some READ ∧
     (getAccessCore (resolveParts false "/players/aedil/com/access.c") "visitor" exMaps).map Prod.fst = some GRANT_GRANT ∧
     (getAccessCore (resolveParts false "/players/dios/workroom.c") "visitor" exMaps).map Prod.fst = some REVOKED ∧
     (getAccessCore (resolveParts false "/players/frogo") "visitor" exMaps).map Prod.fst = some READ ∧
     (getAccessCore (resolveParts false "/players/frogo/workroom.c") "visitor" exMaps).map Prod.fst = some REVOKED) :=
  ⟨by decide, access_c1_example_tree "visitor" (by decide)⟩

/-- A concrete two-tree state list for the witness of the priority theorem. -/
def stsW : List (Option AMap × Int) :=
  [(some [("x", Val.vint GRANT_READ)], 0), (some ([] : AMap), GRANT_GRANT)]

/-- C2: for every path segment, the per-map states are consulted in strict
    priority order: the winner is the least index with a nonzero `eval_map`
    decision, its state is updated to the returned cursor and decision, every
    higher-priority map was consulted and yielded 0, and every lower-priority
    state is returned exactly as it was.  The prioritized list is the
    requester's own tree, then the group trees in membership order, then the
    `"*"` tree.  In particular, a player whose own tree revokes `/data` while
    a group tree grants Write there gets Revoked, sourced from the own
    tree. -/
theorem access_c2_lazy_priority :
    (∀ (part : String) (fin : Bool) (sts : List (Option AMap × Int)) (j : Nat) (a : Int),
      (evalSeg part fin sts).2 = some (j, a) →
        (∀ k, j < k → (evalSeg part fin sts).1.get? k = sts.get? k) ∧
        (∀ c d, sts.get? j = some (c, d) →
          (eval_map part c d fin).1 = a ∧ a ≠ 0 ∧
          (evalSeg part fin sts).1.get? j = some ((eval_map part c d fin).2, a)) ∧
        (∀ k c d, k < j → sts.get? k = some (c, d) → (eval_map part c d fin).1 = 0)) ∧
    (get_access_maps extNone amapPrio "alice").1 =
      [("alice", some [("data", Val.vint REVOKED)]),
       ("Grp", some [("data", Val.vint WRITE)]),
       ("*", some [("*", Val.vint READ)])] ∧
    (getAccessFull extNone amapPrio "alice" "/data").1 = some (REVOKED, "alice") := by
  refine ⟨?_, rfl, rfl⟩
  · intro part fin sts
    induction sts with
    | nil =>
      intro j a h
      simp [evalSeg] at h
    | cons st rest ih =>
      obtain ⟨c0, d0⟩ := st
      intro j a h
      by_cases h0 : (eval_map part c0 d0 fin).1 ≠ 0
      · simp only [evalSeg, if_pos h0] at h ⊢
        obtain ⟨rfl, rfl⟩ : 0 = j ∧ (eval_map part c0 d0 fin).1 = a := by
          simpa using h
        refine ⟨?_, ?_, ?_⟩
        · intro k hk
          cases k with
          | zero => omega
          | succ k' => simp
        · intro c d hcd
          obtain ⟨rfl, rfl⟩ : c0 = c ∧ d0 = d := by simpa using hcd
          exact ⟨rfl, h0, by simp⟩
        · intro k c d hk
          omega
      · have h0' : (eval_map part c0 d0 fin).1 = 0 := not_not.mp h0
        simp only [evalSeg, if_neg h0] at h ⊢
        rw [Option.map_eq_some'] at h
        obtain ⟨⟨j', a'⟩, hq, hfq⟩ := h
        obtain ⟨rfl, rfl⟩ : j' + 1 = j ∧ a' = a := by
          constructor
          · exact congrArg Prod.fst hfq
          · exact congrArg Prod.snd hfq
        obtain ⟨ih1, ih2, ih3⟩ := ih j' a' hq
        refine ⟨?_, ?_, ?_⟩
        · intro k hk
          cases k with
          | zero => omega
          | succ k' =>
            simp only [List.get?_cons_succ]
            exact ih1 k' (by omega)
        · intro c d hcd
          simp only [List.get?_cons_succ] at hcd ⊢
          exact ih2 c d hcd
        · intro k c d hk hcd
          cases k with
          | zero =>
            obtain ⟨rfl, rfl⟩ : c0 = c ∧ d0 = d := by simpa using hcd
            exact h0'
          | succ k' =>
            simp only [List.get?_cons_succ] at hcd
            exact ih3 k' c d (by omega) hcd

/-- C2 witness: the theorem applied to a concrete two-state list whose first
    map wins on the final segment, showing the second state untouched, and
    the concrete own-tree-wins evaluation. -/
theorem access_c2_lazy_priority_witness :
    (evalSeg "x" true stsW).1.get? 1 = stsW.get? 1 ∧
    (getAccessFull extNone amapPrio "alice" "/data").1 = some (REVOKED, "alice") :=
  ⟨(access_c2_lazy_priority.1 "x" true stsW 0 GRANT_READ rfl).1 1 (by decide),
   access_c2_lazy_priority.2.2⟩

/-- C3 counterexample: principal `frogo` has no tree of his own, so the
    generic winner cannot be his own tree, and the path `/players/frogo` has
    his name as second segment — yet the result is the group tree's Write,
    not the forced GrantGrant with the synthetic `!` source: when the
    requester has no own tree but a group tree occupies index 0 and wins, the
    override condition `j != 0 || mapc == 1` (line 725) is false and the
    override is skipped. -/
theorem access_c3_counterexample :
    (getAccessFull extArch amapArch "frogo" "/players/frogo").1 = some (WRITE, "Arch_x") ∧
    mget amapArch "frogo" = none ∧
    some (WRITE, "Arch_x") ≠ some (GRANT_GRANT, ("!" : String)) :=
  ⟨rfl, rfl, by decide⟩

/-- C3 amended: the overrides fire on a `d`/`players` path whose second
    segment is the requester's name only when the winner index is nonzero or
    the map list has exactly one entry; in particular a requester with no own
    tree and no groups (so the list is just the `*` tree) is forced to
    GrantGrant with the `!` source on his own home path. -/
theorem access_c3_amended (ext : ExtData) (amap : AMap) (user path : String)
    (G : AMap)
    (hown : mget amap user = none)
    (hgrp : (query_groups ext amap user).1 = [])
    (hstar : mget amap "*" = some (Val.vmap G))
    (hp0 : (resolveParts false path).get? 0 = some "d" ∨
           (resolveParts false path).get? 0 = some "players")
    (hp1 : (resolveParts false path).get? 1 = some user) :
    (getAccessFull ext amap user path).1 = some (GRANT_GRANT, "!") := by
  have hst := query_groups_state ext amap user
  have hmaps : get_access_maps ext amap user = ([("*", some G)], amap, 0) := by
    unfold get_access_maps
    rw [hst]
    simp [hgrp, hown, hstar, asMapQ]
  have hlen : 2 ≤ (resolveParts false path).length := by
    by_contra hcon
    push_neg at hcon
    have hnone : (resolveParts false path).get? 1 = none :=
      List.get?_eq_none.mpr (by omega)
    rw [hnone] at hp1
    cases hp1
  unfold getAccessFull
  rw [hmaps]
  show (getAccessCore (resolveParts false path) user [("*", G)], amap, 0).1 =
    some (GRANT_GRANT, "!")
  unfold getAccessCore
  rw [if_pos ⟨hlen, hp0, Or.inr rfl⟩, if_pos hp1]

/-- C3 amended witness: `frogo` with no tree and no groups in a database
    holding only the `*` tree is forced to GrantGrant tagged `!` on
    `/players/frogo`. -/
theorem access_c3_amended_witness :
    mget amapG "frogo" = none ∧
    (getAccessFull extNone amapG "frogo" "/players/frogo").1 =
      some (GRANT_GRANT, "!") :=
  ⟨rfl, access_c3_amended extNone amapG "frogo" "/players/frogo" gTree rfl rfl
    rfl (Or.inr rfl) rfl⟩

/-- C4: compaction is not semantically transparent.  Revoking `/a/b/x` in a
    tree whose branch `/a/b` holds the unequal pair `"." = READ`,
    `"*" = WRITE` triggers the removal-side fold (1093-1108), which deletes
    the `"."` unconditionally — without the equality test the grant-side fold
    performs at line 1194 — and folds the branch to the scalar WRITE.  The
    effective level of `/a/b`, a path other than the mutated one, changes
    from Read to Write. -/
theorem access_c4_compaction_not_transparent :
    (grant_access extsNone "kralk" amapFold "/a/b/x" "bob" NO_ACCESS).map
      Prod.fst = some 1 ∧
    (getAccessFull extNone amapFold "bob" "/a/b").1 = some (READ, "bob") ∧
    (grant_access extsNone "kralk" amapFold "/a/b/x" "bob" NO_ACCESS).map
      (fun r => (getAccessFull extNone r.2 "bob" "/a/b").1) =
      some (some (WRITE, "bob")) ∧
    (READ : Int) ≠ WRITE :=
  ⟨rfl, rfl, rfl, by decide⟩

/-- C5: the empty-branch removal is off by one.  Revoking `/a/b/c` empties
    the branch `b`; the cleanup loop at 1112-1113 descends only `sz - 2`
    levels and then deletes `parts[sz-2]` — here the entry `a` of the tree
    root instead of the entry `b` of branch `a` — destroying the sibling
    grant `/a/d` and, the tree now empty, the whole principal (result code
    2).  The sibling's effective level falls from GrantGrant to the global
    Read. -/
theorem access_c5_empty_branch_removal_bug :
    (getAccessFull extNone amapSib "bob" "/a/d").1 = some (GRANT_GRANT, "bob") ∧
    grant_access extsNone "kralk" amapSib "/a/b/c" "bob" NO_ACCESS =
      some (2, [("*", Val.vmap gTree)]) ∧
    (getAccessFull extNone [("*", Val.vmap gTree)] "bob" "/a/d").1 =
      some (READ, "*") :=
  ⟨rfl, rfl, rfl⟩

/-- C7: the self-healing prune is dead code.  The prune condition at line 390
    tests the arch-derived list, whose names were already filtered to
    existing trees at 361-369, so a stale name in the persisted `"?"` list is
    neither removed nor kept out of the result: `query_groups` returns it in
    the ordered group list, leaves the database untouched and never calls
    `save_db` (the general fact is `query_groups_state`). -/
theorem access_c7_prune_never_fires :
    query_groups extNone amapStale "alice" = (["Gone"], amapStale, 0) ∧
    mget amapStale "Gone" = none ∧
    "Gone" ∈ (query_groups extNone amapStale "alice").1 :=
  ⟨rfl, rfl, by decide⟩

/-- Database for the second modifier-independence failure: the branch `/a`
    holds `"."`, `"*"` and a named leaf. -/
def amapDotB : AMap :=
  [("*", Val.vmap [("*", Val.vint GRANT_READ)]),
   ("bob", Val.vmap
     [("a", Val.vmap
       [(".", Val.vint READ), ("*", Val.vint GRANT_WRITE), ("b", Val.vint GRANT_GRANT)])])]

/-- C6 counterexample: the two modifier-independence clauses fail.  Granting
    the branch `/a` the default `"*" = READ` while its `"."` is READ deletes
    the `"."` entry — the obsolete-sibling cleanup at 1221-1224 removes every
    integer child equal to the new level, `"."` included.  And granting a
    path ending in `.` is resolved with the `.` dropped (line 499-502 with
    flag unset), so `grant bob write /a/.` rewrites the branch `a` itself to
    a scalar leaf, destroying its `"*"`. -/
theorem access_c6_counterexample :
    mget (getAt (valToMap ((mget amapDot "bob").getD (Val.vint 0))) ["a"]) "." =
      some (Val.vint READ) ∧
    (grant_access extsNone "moreldir" amapDot "/a/*" "bob" READ).map
      (fun r => mget (getAt (valToMap ((mget r.2 "bob").getD (Val.vint 0))) ["a"]) ".") =
      some none ∧
    mget (getAt (valToMap ((mget amapDotB "bob").getD (Val.vint 0))) ["a"]) "*" =
      some (Val.vint GRANT_WRITE) ∧
    (grant_access extsNone "moreldir" amapDotB "/a/." "bob" WRITE).map
      (fun r => mget (getAt (valToMap ((mget r.2 "bob").getD (Val.vint 0))) ["a"]) "*") =
      some none :=
  ⟨rfl, rfl, rfl, rfl⟩

/-- C6 amended: granting a branch's `"*"` modifier the value X preserves the
    branch's `"."` entry whenever the `"."` value differs from X (when they
    are equal the cleanup deletes `"."` as obsolete), and sets `"*"` to X;
    evaluation consults `"."` only on the final segment — the non-final
    branch decision is computed from `"*"` and the inherited default alone —
    and on the final segment a set `"."` decides whenever the inherited
    default is nonzero.  Concretely, granting `"*" = GRANT_GRANT` on a branch
    whose `"."` is the different value READ leaves the stored `"."`
    intact through the full grant pipeline. -/
theorem access_c6_amended :
    (∀ (m : AMap) (X d : Int), X ≠ 0 → mget m "." = some (Val.vint d) → d ≠ X →
      mget (starSet m X) "." = some (Val.vint d) ∧
      mget (starSet m X) "*" = some (Val.vint X)) ∧
    (∀ (m v : AMap) (part : String) (dfl : Int),
      mget m part = some (Val.vmap v) →
      eval_map part (some m) dfl false =
        ((if dfl = 0 then mgetI v "*"
          else if mgetI v "*" ≠ 0 then mgetI v "*" else dfl), some v) ∧
      (dfl ≠ 0 → mgetI v "." ≠ 0 →
        eval_map part (some m) dfl true = (mgetI v ".", some v))) ∧
    (grant_access extsNone "moreldir" amapDot "/a/*" "bob" GRANT_GRANT).map
      (fun r => mget (getAt (valToMap ((mget r.2 "bob").getD (Val.vint 0))) ["a"]) ".") =
      some (some (Val.vint READ)) := by
  refine ⟨?_, ?_, rfl⟩
  · intro m X d hX hdot hne
    constructor
    · unfold starSet msetV
      rw [mget_msetSome_ne _ _ _ _ (by decide)]
      exact mget_dropIntEq m "." d X hdot hne
    · unfold starSet msetV
      exact mget_msetSome_self _ _ _ (by simp [isNil, hX])
  · intro m v part dfl hmv
    constructor
    · simp [eval_map, hmv]
    · intro hdfl hdot
      simp [eval_map, hmv, hdfl, hdot]

/-- C6 amended witness: the preservation clause applied to a concrete branch
    (`"."` is READ, X is WRITE) and the non-final evaluation clause applied
    to a concrete one-child map. -/
theorem access_c6_amended_witness :
    (mget (starSet [(".", Val.vint READ), ("b", Val.vint GRANT_GRANT)] WRITE) "." =
       some (Val.vint READ) ∧
     mget (starSet [(".", Val.vint READ), ("b", Val.vint GRANT_GRANT)] WRITE) "*" =
       some (Val.vint WRITE)) ∧
    eval_map "a" (some [("a", Val.vmap [(".", Val.vint READ)])]) GRANT_READ false =
      ((if (GRANT_READ : Int) = 0 then mgetI [(".", Val.vint READ)] "*"
        else if mgetI [(".", Val.vint READ)] "*" ≠ 0 then mgetI [(".", Val.vint READ)] "*"
        else GRANT_READ), some [(".", Val.vint READ)]) :=
  ⟨access_c6_amended.1 [(".", Val.vint READ), ("b", Val.vint GRANT_GRANT)] WRITE READ
     (by decide) rfl (by decide),
   (access_c6_amended.2.1 [("a", Val.vmap [(".", Val.vint READ)])]
     [(".", Val.vint READ)] "a" GRANT_READ rfl).1⟩

/-- C8 counterexample: acting principal `moreldir` has effective access READ
    at `/x`, below the GrantGrant tier required to grant GrantGrant, yet
    `grant_access` succeeds with code 1 instead of returning the
    not-authorized error: the hard-coded admins bypass the tier check
    (1063-1065). -/
theorem access_c8_counterexample :
    (getAccessFull extNone amapG "moreldir" "/x").1 = some (READ, "*") ∧
    READ < minTier GRANT_GRANT ∧
    (grant_access extsNone "moreldir" amapG "/x" "bob" GRANT_GRANT).map
      Prod.fst = some 1 ∧
    (1 : Int) ≠ -1 :=
  ⟨rfl, by decide, rfl, by decide⟩

/-- C8 amended: for an acting principal whose effective uid is not one of the
    three hard-coded admins, `grant_access` returns the typed not-authorized
    result -1 — with the database unchanged beyond the evaluation call —
    whenever the principal's effective access at the path is below the
    minimum grant tier for the requested level (GrantRead for
    NoAccess/Revoked/Read, GrantWrite for GrantRead/Write, GrantGrant for
    GrantWrite/GrantGrant). -/
theorem access_c8_amended (exts : String → ExtData) (euid path user : String)
    (amap : AMap) (t a : Int) (src : String) (req : List Int)
    (hadm : euid ∉ admins)
    (hreq : reqtype t = some req)
    (hacc : (getAccessFull (exts euid) amap euid path).1 = some (a, src))
    (hlt : a < minTier t) :
    grant_access exts euid amap path user t =
      some (-1, (getAccessFull (exts euid) amap euid path).2.1) := by
  unfold grant_access
  simp only [hreq, hacc]
  rw [if_neg]
  intro hor
  rcases hor with hm | hm
  · exact not_mem_req_of_lt_minTier t a req hreq hlt (by simpa using hm)
  · exact hadm hm

/-- C8 amended witness: non-admin `alice` with effective access READ at `/x`
    asking to grant GrantGrant receives the typed result -1. -/
theorem access_c8_amended_witness :
    "alice" ∉ admins ∧
    grant_access extsNone "alice" amapG "/x" "bob" GRANT_GRANT =
      some (-1, amapG) :=
  ⟨by decide,
   access_c8_amended extsNone "alice" "/x" "bob" amapG GRANT_GRANT READ "*"
     [GRANT_GRANT] (by decide) rfl rfl (by decide)⟩

/-- C9: for an acting principal whose effective uid is one of the hard-coded
    admins, `grant_access` never returns the not-authorized result -1: the
    grant-tier requirement is bypassed for every path, target principal,
    database, external data and requested level, and every other outcome
    carries code 0, 1 or 2. -/
theorem access_c9_admin_bypass (exts : String → ExtData)
    (euid path user : String) (amap : AMap) (t : Int) (r : Int × AMap)
    (hadm : euid ∈ admins)
    (h : grant_access exts euid amap path user t = some r) :
    r.1 ≠ -1 := by
  unfold grant_access at h
  split at h
  · cases h
  · split at h
    · cases h
    · split at h
      · split at h
        · have := grant_remove_code _ _ _ _ h
          omega
        · have := grant_add_code _ _ _ _ _ _ h
          omega
      · exact absurd (Or.inr hadm) (by assumption)

/-- C9 witness: admin `kralk` with effective access READ at `/x` grants
    GrantGrant; the result is code 1, not -1. -/
theorem access_c9_admin_bypass_witness :
    "kralk" ∈ admins ∧
    grant_access extsNone "kralk" amapG "/x" "bob" GRANT_GRANT =
      some (1, [("*", Val.vmap gTree), ("bob", Val.vmap [("x", Val.vint GRANT_GRANT)])]) ∧
    ((1 : Int),
      ([("*", Val.vmap gTree), ("bob", Val.vmap [("x", Val.vint GRANT_GRANT)])] : AMap)).1 ≠ -1 :=
  ⟨by decide, rfl,
   access_c9_admin_bypass extsNone "kralk" "/x" "bob" amapG GRANT_GRANT _
     (by decide) rfl⟩

/-- C10: removing a player from a static group is gated on the target
    player's own level, not the acting principal's: when the target is a
    member and its level is at least JUNIOR_ARCH the call fails with the
    privilege error -7 for every acting level, and when the target's level is
    below JUNIOR_ARCH the removal succeeds with code 1 for every acting
    level. -/
theorem access_c10_static_group_gate (ext : ExtData) (amap : AMap)
    (user group : String) (plyLevel : Int)
    (hf : user ∉ fusers) (hl : ¬ user ≠ lower_case user)
    (hmem : group ∈ (query_groups ext amap user).1) (hs : group ∈ s_grps) :
    (ext.JUNIOR_ARCH ≤ ext.level →
      grant_access_group ext plyLevel amap user group false =
        (-7, (query_groups ext amap user).2.1)) ∧
    (ext.level < ext.JUNIOR_ARCH →
      (grant_access_group ext plyLevel amap user group false).1 = 1) := by
  constructor
  · intro hlev
    unfold grant_access_group
    rw [if_neg hf, if_neg hl]
    simp only []
    rw [if_pos hmem, if_neg (by decide), if_pos ⟨hs, hlev⟩]
  · intro hlev
    unfold grant_access_group
    rw [if_neg hf, if_neg hl]
    simp only []
    rw [if_pos hmem, if_neg (by decide),
      if_neg (fun hc : group ∈ s_grps ∧ ext.JUNIOR_ARCH ≤ ext.level =>
        absurd hc.2 (not_le.mpr hlev))]
    repeat' split
    all_goals rfl

/-- C10 witness: target `bob`, a persisted member of the static group
    `Arch_docs`, cannot be removed (error -7) when his level equals
    JUNIOR_ARCH, and is removed (code 1) when below, in both cases with the
    acting principal's level 0. -/
theorem access_c10_static_group_gate_witness :
    "Arch_docs" ∈ (query_groups extJr amapGrp "bob").1 ∧
    grant_access_group extJr 0 amapGrp "bob" "Arch_docs" false = (-7, amapGrp) ∧
    (grant_access_group extNone 0 amapGrp "bob" "Arch_docs" false).1 = 1 :=
  ⟨by decide,
   (access_c10_static_group_gate extJr amapGrp "bob" "Arch_docs" 0 (by decide)
     (by decide) (by decide) (by decide)).1 (by decide),
   (access_c10_static_group_gate extNone amapGrp "bob" "Arch_docs" 0 (by decide)
     (by decide) (by decide) (by decide)).2 (by decide)⟩
